import Mathlib

/-!
# Verification of the lumfin OTA update server

Shallow embedding of the lumfin OTA update server (publish pipeline and
manifest resolution endpoint) with proofs of the specification's claims.

Sources embedded:
* `src/app/api/updates/route.ts` (the `GET` handler, `isUUID`)
* `src/lib/storage.ts` (`uploadToVercelBlob`, `verifyHashFromUrl`, `getContentType`)
* the publish script (`publishUpdate`, `generateUpdateId`)
* the mongoose `UpdateSchema` (scope fields, unique index on
  `(runtimeVersion, platform, channel, commitTime)`)

Strings are Lean `String`s; the JavaScript string operations used by the code
(`toLowerCase`, `endsWith`, `split`, template literals) are implemented over
`String.data` so that every definition evaluates by kernel reduction.
Machine integers do not occur; all arithmetic is on `Nat`.
-/

namespace Ota

/-! ## JavaScript string helpers -/

/-- ASCII lowercasing of one character (JS `toLowerCase` on the ASCII range,
which is the only range appearing in file names handled by the code). -/
def lowerChar (c : Char) : Char :=
  if 'A' ≤ c ∧ c ≤ 'Z' then Char.ofNat (c.toNat + 32) else c

/-- JS `String.prototype.toLowerCase` (ASCII range). -/
def lowerStr (s : String) : String :=
  String.mk (s.data.map lowerChar)

/-- JS `String.prototype.endsWith`. -/
def strEndsWith (s sfx : String) : Bool :=
  s.data.drop (s.data.length - sfx.data.length) == sfx.data

/-- JS `String.prototype.split(sep)` on a one-character separator,
over the character list. -/
def splitOn (sep : Char) : List Char → List (List Char)
  | [] => [[]]
  | c :: cs =>
    match splitOn sep cs with
    | [] => [[]]
    | g :: gs => if c = sep then [] :: g :: gs else (c :: g) :: gs

/-- JS `s.split(sep).pop()`, with `""` standing for the (unreachable for
`splitOn`) empty-array `undefined` case. -/
def lastSplit (s : String) (sep : Char) : String :=
  match (splitOn sep s.data).getLast? with
  | some g => String.mk g
  | none => ""

/-- JS `x || d` on strings: the empty string is falsy. -/
def jsOrDefault (x d : String) : String :=
  if x = "" then d else x

/-- JS `a || b` where `a b : string | null` (absent header/param is `null`,
the empty string is falsy). -/
def jsOrS (a b : Option String) : Option String :=
  match a with
  | some s => if s = "" then b else some s
  | none => b

/-- JS falsiness of a `string | null` value. -/
def strFalsy (a : Option String) : Bool :=
  match a with
  | some s => s == ""
  | none => true

/-- JS `relativePath.replace(/\\/g, '/')`. -/
def normSlash (s : String) : String :=
  String.mk (s.data.map (fun c => if c = '\\' then '/' else c))

/-! ## Decimal digits and fixed-width decimal printing -/

/-- The decimal digit character of `n % 10`. -/
def digitChar (n : Nat) : Char := Char.ofNat (48 + n % 10)

/-- Fixed-width decimal rendering of `n % 10^w` (JS `String(n).padStart(w,'0')`
for `n < 10^w`, the only range used below). -/
def padNat : Nat → Nat → List Char
  | 0, _ => []
  | w + 1, n => padNat w (n / 10) ++ [digitChar n]

/-- Decimal-digit test. -/
def isDigitC (c : Char) : Bool :=
  decide ('0' ≤ c) && decide (c ≤ '9')

/-- Numeric value of a decimal digit character. -/
def digitVal (c : Char) : Nat := c.toNat - 48

/-! ## `Date.prototype.toISOString`

Millisecond timestamps are modelled as `Nat` (milliseconds since the Unix
epoch); the civil-calendar split is the standard days-to-civil algorithm.
The model covers the years 1970–9999, i.e. `ms < 253402300800000`; the
theorems that rely on it carry that bound. -/

/-- Upper bound (exclusive) on modelled timestamps: 10000-01-01T00:00:00Z. -/
def maxMs : Nat := 253402300800000

/-- Gregorian calendar date (year, month, day) of a day count since
1970-01-01. -/
def civilFromDays (z : Nat) : Nat × Nat × Nat :=
  let zd := z + 719468
  let era := zd / 146097
  let doe := zd % 146097
  let yoe := (doe - doe / 1460 + doe / 36524 - doe / 146096) / 365
  let y := yoe + era * 400
  let doy := doe - (365 * yoe + yoe / 4 - yoe / 100)
  let mp := (5 * doy + 2) / 153
  let d := doy - (153 * mp + 2) / 5 + 1
  let m := if mp < 10 then mp + 3 else mp - 9
  (if m ≤ 2 then y + 1 else y, m, d)

/-- JS `new Date(ms).toISOString()` for `0 ≤ ms`, years 1970–9999:
`YYYY-MM-DDTHH:mm:ss.sssZ`. -/
def toISOStringMs (ms : Nat) : String :=
  let c := civilFromDays (ms / 86400000)
  let tod := ms % 86400000
  String.mk (padNat 4 c.1 ++ '-' :: padNat 2 c.2.1 ++ '-' :: padNat 2 c.2.2 ++
    'T' :: padNat 2 (tod / 3600000) ++ ':' :: padNat 2 (tod % 3600000 / 60000) ++
    ':' :: padNat 2 (tod % 60000 / 1000) ++ '.' :: padNat 3 (tod % 1000) ++ ['Z'])

/-- Syntactic validity of an ISO-8601 UTC timestamp in the exact shape
produced by `Date.prototype.toISOString`: `YYYY-MM-DDTHH:mm:ss.sssZ` with
month 01–12, day 01–31, hour ≤ 23, minute and second ≤ 59. -/
def isValidISO8601 (s : String) : Bool :=
  match s.data with
  | [y1, y2, y3, y4, a1, m1, m2, a2, d1, d2, t1, h1, h2, b1, n1, n2, b2,
     s1, s2, p1, f1, f2, f3, z1] =>
    ([y1, y2, y3, y4, m1, m2, d1, d2, h1, h2, n1, n2, s1, s2, f1, f2, f3].all
      isDigitC) &&
    (a1 == '-') && (a2 == '-') && (t1 == 'T') && (b1 == ':') && (b2 == ':') &&
    (p1 == '.') && (z1 == 'Z') &&
    (let mo := 10 * digitVal m1 + digitVal m2
     let da := 10 * digitVal d1 + digitVal d2
     let ho := 10 * digitVal h1 + digitVal h2
     let mn := 10 * digitVal n1 + digitVal n2
     let sc := 10 * digitVal s1 + digitVal s2
     decide (1 ≤ mo) && decide (mo ≤ 12) && decide (1 ≤ da) && decide (da ≤ 31) &&
     decide (ho ≤ 23) && decide (mn ≤ 59) && decide (sc ≤ 59))
  | _ => false

/-! ### Digit and padding lemmas -/

theorem padNat_two (n : Nat) : padNat 2 n = [digitChar (n / 10), digitChar n] := rfl

theorem padNat_three (n : Nat) :
    padNat 3 n = [digitChar (n / 10 / 10), digitChar (n / 10), digitChar n] := rfl

theorem padNat_four (n : Nat) :
    padNat 4 n =
      [digitChar (n / 10 / 10 / 10), digitChar (n / 10 / 10), digitChar (n / 10),
       digitChar n] := rfl

theorem isDigitC_digitChar (n : Nat) : isDigitC (digitChar n) = true := by
  have h : n % 10 < 10 := Nat.mod_lt _ (by decide)
  unfold digitChar
  generalize hr : n % 10 = r at h ⊢
  interval_cases r <;> decide

theorem digitVal_digitChar (n : Nat) : digitVal (digitChar n) = n % 10 := by
  have h : n % 10 < 10 := Nat.mod_lt _ (by decide)
  unfold digitChar digitVal
  generalize hr : n % 10 = r at h ⊢
  interval_cases r <;> decide

/-- Bounds on the civil-calendar split for the modelled day range
(1970-01-01 through 9999-12-31). -/
theorem civilFromDays_bounds (z : Nat) (hz : z ≤ 2932896) :
    (civilFromDays z).1 ≤ 9999 ∧
    1 ≤ (civilFromDays z).2.1 ∧ (civilFromDays z).2.1 ≤ 12 ∧
    1 ≤ (civilFromDays z).2.2 ∧ (civilFromDays z).2.2 ≤ 31 := by
  unfold civilFromDays
  simp only []
  split <;> split <;> omega

/-- `toISOStringMs` always yields a syntactically valid ISO-8601 timestamp
on the modelled range. -/
theorem isValidISO8601_toISOStringMs (ms : Nat) (h : ms < maxMs) :
    isValidISO8601 (toISOStringMs ms) = true := by
  have hday : ms / 86400000 ≤ 2932896 := by unfold maxMs at h; omega
  have hb := civilFromDays_bounds (ms / 86400000) hday
  have htod : ms % 86400000 < 86400000 := Nat.mod_lt _ (by decide)
  unfold toISOStringMs
  simp only [padNat_four, padNat_three, padNat_two]
  unfold isValidISO8601
  simp only [List.cons_append, List.nil_append, List.all_cons, List.all_nil,
    Bool.and_eq_true, beq_iff_eq, decide_eq_true_eq, isDigitC_digitChar,
    digitVal_digitChar, and_true, true_and]
  obtain ⟨hy, hm1, hm2, hd1, hd2⟩ := hb
  omega

/-! ## UUIDs

`generateUpdateId` embeds the publish script's UUID-v4 construction over 16
random bytes (`crypto.randomBytes(16)` with the version and variant nibbles
forced, hex-encoded and dash-sliced).  `crypto.randomUUID()` used by the
resolution endpoint performs the same RFC 4122 v4 construction, so the same
definition models it.  `isUUID` embeds the endpoint's validation regex
`/^[0-9a-f]{8}-[0-9a-f]{4}-[1-5][0-9a-f]{3}-[89ab][0-9a-f]{3}-[0-9a-f]{12}$/i`. -/

/-- Lowercase hex digit of `n % 16` (Node `Buffer.prototype.toString('hex')`). -/
def hexChar (n : Nat) : Char :=
  if n % 16 < 10 then Char.ofNat (48 + n % 16) else Char.ofNat (87 + n % 16)

/-- Two-character lowercase hex rendering of one byte. -/
def byteHex (b : Nat) : List Char := [hexChar (b / 16), hexChar b]

/-- The publish script's `generateUpdateId`: 16 random bytes, version nibble
forced to 4, variant bits forced to 10, hex-encoded, sliced 8-4-4-4-12. -/
def generateUpdateId (b : Fin 16 → Nat) : String :=
  let bytes : List Nat :=
    [b 0, b 1, b 2, b 3, b 4, b 5, b 6 &&& 15 ||| 64, b 7,
     b 8 &&& 63 ||| 128, b 9, b 10, b 11, b 12, b 13, b 14, b 15]
  let hex := (bytes.map byteHex).flatten
  String.mk (hex.take 8 ++ '-' :: (hex.drop 8).take 4 ++ '-' :: (hex.drop 12).take 4 ++
    '-' :: (hex.drop 16).take 4 ++ '-' :: hex.drop 20)

/-- Case-insensitive hex digit test (regex class `[0-9a-f]` under `/i`). -/
def isHexC (c : Char) : Bool :=
  isDigitC c || (decide ('a' ≤ c) && decide (c ≤ 'f')) ||
    (decide ('A' ≤ c) && decide (c ≤ 'F'))

/-- The endpoint's `isUUID` regex as a character-level checker. -/
def isUUID (s : String) : Bool :=
  match s.data with
  | a1 :: a2 :: a3 :: a4 :: a5 :: a6 :: a7 :: a8 :: u1 :: b1 :: b2 :: b3 :: b4 ::
    u2 :: v1 :: c2 :: c3 :: c4 :: u3 :: r1 :: e2 :: e3 :: e4 :: u4 :: f1 :: f2 ::
    f3 :: f4 :: f5 :: f6 :: f7 :: f8 :: f9 :: f10 :: f11 :: f12 :: [] =>
    ([a1, a2, a3, a4, a5, a6, a7, a8, b1, b2, b3, b4, c2, c3, c4, e2, e3, e4,
      f1, f2, f3, f4, f5, f6, f7, f8, f9, f10, f11, f12].all isHexC) &&
    (u1 == '-') && (u2 == '-') && (u3 == '-') && (u4 == '-') &&
    (decide ('1' ≤ v1) && decide (v1 ≤ '5')) &&
    ((decide ('8' ≤ r1) && decide (r1 ≤ '9')) ||
     (decide ('a' ≤ r1) && decide (r1 ≤ 'b')) ||
     (decide ('A' ≤ r1) && decide (r1 ≤ 'B')))
  | _ => false

theorem isHexC_hexChar (n : Nat) : isHexC (hexChar n) = true := by
  have h : n % 16 < 16 := Nat.mod_lt _ (by decide)
  unfold hexChar
  generalize hr : n % 16 = r at h ⊢
  interval_cases r <;> decide

/-- The forced version nibble always renders as the character `4`. -/
theorem hexChar_version (b : Nat) : hexChar ((b &&& 15 ||| 64) / 16) = '4' := by
  have h : b &&& 15 ≤ 15 := Nat.and_le_right
  generalize hr : b &&& 15 = r at h ⊢
  interval_cases r <;> decide

/-- The forced variant nibble always renders as `8`, `9`, `a` or `b`. -/
theorem hexChar_variant (b : Nat) :
    ((decide ('8' ≤ hexChar ((b &&& 63 ||| 128) / 16)) &&
      decide (hexChar ((b &&& 63 ||| 128) / 16) ≤ '9')) ||
     (decide ('a' ≤ hexChar ((b &&& 63 ||| 128) / 16)) &&
      decide (hexChar ((b &&& 63 ||| 128) / 16) ≤ 'b')) ||
     (decide ('A' ≤ hexChar ((b &&& 63 ||| 128) / 16)) &&
      decide (hexChar ((b &&& 63 ||| 128) / 16) ≤ 'B'))) = true := by
  have h : b &&& 63 ≤ 63 := Nat.and_le_right
  generalize hr : b &&& 63 = r at h ⊢
  interval_cases r <;> decide

/-- `generateUpdateId` written out character by character. -/
theorem generateUpdateId_eq (b : Fin 16 → Nat) :
    generateUpdateId b = String.mk
      [hexChar (b 0 / 16), hexChar (b 0), hexChar (b 1 / 16), hexChar (b 1),
       hexChar (b 2 / 16), hexChar (b 2), hexChar (b 3 / 16), hexChar (b 3),
       '-',
       hexChar (b 4 / 16), hexChar (b 4), hexChar (b 5 / 16), hexChar (b 5),
       '-',
       hexChar ((b 6 &&& 15 ||| 64) / 16), hexChar (b 6 &&& 15 ||| 64),
       hexChar (b 7 / 16), hexChar (b 7),
       '-',
       hexChar ((b 8 &&& 63 ||| 128) / 16), hexChar (b 8 &&& 63 ||| 128),
       hexChar (b 9 / 16), hexChar (b 9),
       '-',
       hexChar (b 10 / 16), hexChar (b 10), hexChar (b 11 / 16), hexChar (b 11),
       hexChar (b 12 / 16), hexChar (b 12), hexChar (b 13 / 16), hexChar (b 13),
       hexChar (b 14 / 16), hexChar (b 14), hexChar (b 15 / 16), hexChar (b 15)] := rfl

/-- Every identifier produced by `generateUpdateId` passes the endpoint's
UUID validation. -/
theorem isUUID_generateUpdateId (b : Fin 16 → Nat) :
    isUUID (generateUpdateId b) = true := by
  rw [generateUpdateId_eq]
  unfold isUUID
  simp only [List.all_cons, List.all_nil, isHexC_hexChar, hexChar_version,
    hexChar_variant]
  decide

/-! ## Data model

`UpdateRec` embeds one document of the mongoose `Update` model
(`UpdateSchema`): scope fields, `status`, `commitTime` (a `Date`),
the `Mixed`-typed `manifest`, optional `message`, `createdAt`, and the
`publishedAt` instant set by the publish script.  Values of `Date`-typed
fields may, across pipeline revisions, also hold raw numbers; `JsDate`
captures both.  `StoredManifest` is the heterogeneous stored manifest
(every field may be absent), `Manifest` the normalized protocol document
returned by the endpoint. -/

/-- A value held in a `Date`-typed field: a JS `Date` object or a raw
epoch-millisecond number written by an older pipeline revision. -/
inductive JsDate where
  | date (ms : Nat)
  | num (ms : Nat)
deriving DecidableEq, Repr

/-- Epoch milliseconds of the value. -/
def JsDate.ms : JsDate → Nat
  | .date m => m
  | .num m => m

/-- JS truthiness: every `Date` object is truthy, the number `0` is falsy. -/
def JsDate.truthy : JsDate → Bool
  | .date _ => true
  | .num m => m != 0

/-- JS `a || b` on optional date-like values (`undefined` and `0` are falsy). -/
def jsOrD (a b : Option JsDate) : Option JsDate :=
  match a with
  | some d => if d.truthy then some d else b
  | none => b

/-- A manifest asset entry. -/
structure Asset where
  hash : String
  key : String
  contentType : String
  url : String
deriving DecidableEq, Repr

/-- The stored (Mixed-typed, possibly malformed) manifest of a record.
`createdAtRaw` holds whatever string the writing revision stored; the
endpoint overwrites it unconditionally and never reads it. -/
structure StoredManifest where
  id : Option String
  createdAtRaw : Option String
  runtimeVersion : Option String
  launchAsset : Option Asset
  assets : Option (List Asset)
  metadata : Option (List (String × String))
  extra : Option (List (String × String))
deriving DecidableEq, Repr

/-- The normalized manifest returned by the resolution endpoint. -/
structure Manifest where
  id : String
  createdAt : String
  runtimeVersion : String
  launchAsset : Asset
  assets : List Asset
  metadata : List (String × String)
  extra : List (String × String)
deriving DecidableEq, Repr

/-- One persisted document of the `Update` model. -/
structure UpdateRec where
  id : Option String
  runtimeVersion : String
  platform : String
  channel : String
  status : String
  commitTime : Option JsDate
  manifest : StoredManifest
  message : Option String
  createdAt : Option JsDate
  publishedAt : Option JsDate
deriving DecidableEq, Repr

/-- A document satisfies the `UpdateSchema` enum and type constraints
(`platform`/`channel`/`status` enums, `commitTime` a required `Date`). -/
def schemaValid (r : UpdateRec) : Prop :=
  (r.platform = "ios" ∨ r.platform = "android") ∧
  (r.channel = "development" ∨ r.channel = "staging" ∨ r.channel = "production") ∧
  (r.status = "draft" ∨ r.status = "published" ∨ r.status = "rolled_back") ∧
  ∃ ms, r.commitTime = some (.date ms)

/-! ## The Update Record Store

`findLatest` embeds the endpoint's store lookup
`Update.findOne({runtimeVersion, platform, channel, status: 'published'})
.sort({commitTime: -1}).lean()`: among the matching documents it returns the
first one carrying the greatest commit instant (the head of a stable
descending sort).  `insertUpdate` embeds `new Update({...}).save()` under the
schema's unique index on `(runtimeVersion, platform, channel, commitTime)`:
a document duplicating that key is rejected and nothing is written. -/

/-- The query filter of the endpoint's `findOne`. -/
def matchesQuery (rv p c : String) (r : UpdateRec) : Bool :=
  r.runtimeVersion == rv && r.platform == p && r.channel == c &&
    r.status == "published"

/-- Sort key of `.sort({commitTime: -1})` (a missing value sorts last). -/
def sortKeyCommitTime (r : UpdateRec) : Nat :=
  match r.commitTime with
  | some d => d.ms
  | none => 0

/-- One step of taking the head of the descending-`commitTime` sort: keep
whichever of the two documents has the strictly greater key, the earlier one
on ties. -/
def laterOf (best : Option UpdateRec) (r : UpdateRec) : Option UpdateRec :=
  match best with
  | none => some r
  | some b => if sortKeyCommitTime b < sortKeyCommitTime r then some r else some b

/-- Head of the stable descending-`commitTime` sort of a document list. -/
def pickLatest (l : List UpdateRec) : Option UpdateRec :=
  l.foldl laterOf none

/-- The endpoint's store lookup (`findOne` + `sort({commitTime: -1})`). -/
def findLatest (rv p c : String) (store : List UpdateRec) : Option UpdateRec :=
  pickLatest (store.filter (matchesQuery rv p c))

/-- The unique-index key `(runtimeVersion, platform, channel, commitTime)`,
with `commitTime` compared by instant. -/
def commitKey (r : UpdateRec) : String × String × String × Option Nat :=
  (r.runtimeVersion, r.platform, r.channel, r.commitTime.map JsDate.ms)

/-- Publish-time pipeline errors (spec taxonomy). -/
inductive PublishError where
  | formatViolation
  | integrityError
  | persistenceConflict
deriving DecidableEq, Repr

/-- `document.save()` under the schema's unique index: reject a duplicate
`(scope, commitTime)` key, otherwise append the document. -/
def insertUpdate (store : List UpdateRec) (r : UpdateRec) :
    Except PublishError (List UpdateRec) :=
  if store.any (fun s => commitKey s == commitKey r) then
    .error .persistenceConflict
  else
    .ok (store ++ [r])

/-! ## The resolution endpoint (`GET /api/updates`) -/

/-- A resolution request: the three `expo-*` headers and the three query
parameters (absent is `none`). -/
structure UpdatesRequest where
  hRuntimeVersion : Option String
  hPlatform : Option String
  hChannel : Option String
  qRuntimeVersion : Option String
  qPlatform : Option String
  qChannel : Option String
deriving DecidableEq, Repr

/-- A response body: empty (`null`), a JSON error object, or a manifest. -/
inductive RespBody where
  | empty
  | errMsg (s : String)
  | manifest (m : Manifest)
deriving DecidableEq, Repr

/-- An HTTP response as produced by `NextResponse`. -/
structure HttpResponse where
  status : Nat
  body : RespBody
  headers : List (String × String)
deriving DecidableEq, Repr

/-- Result of serving one resolution request: the response, the store after
the request (the handler only reads), and the number of store queries
issued. -/
structure GetOutcome where
  resp : HttpResponse
  store : List UpdateRec
  queries : Nat
deriving Repr

/-- The anti-cache headers attached to every response of the endpoint. -/
def noCacheHeaders : List (String × String) :=
  [("Cache-Control", "no-store, no-cache, must-revalidate, proxy-revalidate"),
   ("Pragma", "no-cache"),
   ("Expires", "0")]

/-- The `GET /api/updates` handler of `src/app/api/updates/route.ts`.

`rb` stands in for the entropy consumed by `crypto.randomUUID()` and `now`
for `new Date()` at request time.  `structuredClone` needs no counterpart:
the normalized manifest is assembled as a fresh value and the store is
returned untouched.  When the launch asset is recovered out of the assets
array (`find(key === 'bundle')` or `assets[0]`), the JS code mutates that
array element in place when forcing its `contentType`; this aliasing is
reproduced with `List.set` at the recovered index. -/
def handleGet (rb : Fin 16 → Nat) (now : Nat) (req : UpdatesRequest)
    (store : List UpdateRec) : GetOutcome :=
  let runtimeVersion := jsOrS req.hRuntimeVersion req.qRuntimeVersion
  let platform := jsOrS req.hPlatform req.qPlatform
  let channel := jsOrS (jsOrS req.hChannel req.qChannel) (some "production")
  if strFalsy runtimeVersion || strFalsy platform then
    { resp := { status := 400,
                body := .errMsg "Missing required parameters: runtimeVersion and platform",
                headers := ("Content-Type", "application/json") :: noCacheHeaders },
      store := store, queries := 0 }
  else
    let rv := runtimeVersion.getD ""
    let p := platform.getD ""
    let c := channel.getD ""
    match findLatest rv p c store with
    | none =>
      { resp := { status := 204, body := .empty,
                  headers := ("expo-protocol-version", "1") :: noCacheHeaders },
        store := store, queries := 1 }
    | some doc =>
      let m0 := doc.manifest
      let mid : String :=
        match doc.id with
        | some s => if isUUID s then s else generateUpdateId rb
        | none => generateUpdateId rb
      let createdAtDate : JsDate :=
        (jsOrD doc.commitTime (jsOrD doc.createdAt (some (.date now)))).getD (.date now)
      let mCreatedAt := toISOStringMs createdAtDate.ms
      let laFound : Option (Option Nat × Asset) :=
        match m0.launchAsset with
        | some la => some (none, la)
        | none =>
          match m0.assets with
          | some assetsL =>
            match assetsL.findIdx? (fun a => a.key == "bundle") with
            | some i =>
              match assetsL.get? i with
              | some la => some (some i, la)
              | none => none
            | none =>
              match assetsL.get? 0 with
              | some la => some (some 0, la)
              | none => none
          | none => none
      match laFound with
      | none =>
        { resp := { status := 500, body := .errMsg "Invalid manifest: missing launchAsset",
                    headers := ("Content-Type", "application/json") :: noCacheHeaders },
          store := store, queries := 1 }
      | some (idx, la) =>
        let la' := { la with contentType := "application/octet-stream" }
        let assets0 := m0.assets.getD []
        let assets1 :=
          match idx with
          | some i => assets0.set i la'
          | none => assets0
        let assets2 :=
          if assets1.any (fun a => a.url == la'.url || a.key == la'.key) then assets1
          else la' :: assets1
        let m : Manifest :=
          { id := mid, createdAt := mCreatedAt, runtimeVersion := rv,
            launchAsset := la', assets := assets2,
            metadata := m0.metadata.getD [], extra := m0.extra.getD [] }
        { resp := { status := 200, body := .manifest m,
                    headers := ("Content-Type", "application/json") ::
                      ("expo-protocol-version", "1") :: ("expo-sfv-version", "0") ::
                      noCacheHeaders },
          store := store, queries := 1 }

/-! ## Object storage (`src/lib/storage.ts`) and the publish pipeline -/

/-- `getContentType` of `src/lib/storage.ts`: MIME type from the lowercased
file extension, defaulting to the opaque binary type. -/
def getContentType (filename : String) : String :=
  let ext := lastSplit (lowerStr filename) '.'
  if ext = "png" then "image/png"
  else if ext = "jpg" then "image/jpeg"
  else if ext = "jpeg" then "image/jpeg"
  else if ext = "gif" then "image/gif"
  else if ext = "svg" then "image/svg+xml"
  else if ext = "json" then "application/json"
  else if ext = "ttf" then "font/ttf"
  else if ext = "woff" then "font/woff"
  else if ext = "woff2" then "font/woff2"
  else if ext = "js" then "application/javascript"
  else if ext = "map" then "application/json"
  else if ext = "hbc" then "application/octet-stream"
  else "application/octet-stream"

/-- What one identity-encoded `fetch` of a URL observes: `response.ok`, the
`Content-Encoding` header, and the body bytes.  File bytes are `List Nat`. -/
structure FetchResponse where
  ok : Bool
  contentEncoding : Option String
  body : List Nat
deriving DecidableEq, Repr

/-- Return value of `verifyHashFromUrl` (`matches` is a Lean keyword, so that
field is named `hashMatches` here). -/
structure VerifyResult where
  hashMatches : Bool
  actualHash : String
  error : Option String
deriving DecidableEq, Repr

/-- `verifyHashFromUrl` of `src/lib/storage.ts`: fetch the URL with
`Accept-Encoding: identity`, reject a non-`ok` status, reject any
`Content-Encoding` other than `identity`, otherwise hash the received bytes
and compare with the expected digest.  `doFetch` is the serving environment
(the response to the identity-encoded request) and `hashFn` the digest
function (`calculateHash`, SHA-256 hex via node `crypto`, treated as an
opaque external primitive). -/
def verifyHashFromUrl (doFetch : String → FetchResponse)
    (hashFn : List Nat → String) (url expectedHash : String) : VerifyResult :=
  let r := doFetch url
  if !r.ok then { hashMatches := false, actualHash := "", error := some "http error" }
  else if (match r.contentEncoding with
           | some enc => enc != "identity"
           | none => false) then
    { hashMatches := false, actualHash := "",
      error := some "Compression detected! Hash will NOT match." }
  else
    let actualHash := hashFn r.body
    { hashMatches := actualHash == expectedHash, actualHash := actualHash,
      error := if actualHash == expectedHash then none else some "Hash mismatch!" }

/-- Modelled from the spec: the storage revision of `uploadToVercelBlob`
taking `(filePath, updateId, fileName)` that the publish script invokes is
not present under `src/` (the copies there have the older
`(filePath, fileName, options?)` signature).  Per the spec's object-storage
layout and the publish script's own comment
(`Path format: updates/{updateId}/assets/{relativePath}`), the blob pathname
it writes is `<store-root>/<updateIdentifier>/<fileName>` with store root
`updates`. -/
def blobPath (updateId fileName : String) : String :=
  "updates/" ++ updateId ++ "/" ++ fileName

/-- The publish pipeline's environment: the located bundle, the discovered
asset files in traversal order, the object store's URL assignment, the
serving state reachable after upload, the entropy for `generateUpdateId`,
and the clock (`new Date()` at commit time). -/
structure PublishEnv where
  bundlePath : String
  bundleContent : List Nat
  assetFiles : List (String × List Nat)
  urlOf : String → String
  doFetch : String → FetchResponse
  randomBytes : Fin 16 → Nat
  now : Nat

/-- Result of one publish invocation: the blob pathnames written, in order,
and either a pipeline error or the new store contents plus the persisted
record. -/
structure PublishOutcome where
  uploads : List String
  result : Except PublishError (List UpdateRec × UpdateRec)

/-- The publish pipeline (`publishUpdate` of the publish script), from the
point where the bundle has been located (steps 5–10; the Expo export and
the artifact search are the external build collaborator).  `hashFn` is
`calculateHash`. -/
def runPublish (hashFn : List Nat → String) (env : PublishEnv)
    (platform channel runtimeVersion : String) (message : Option String)
    (store : List UpdateRec) : PublishOutcome :=
  let isBinary := strEndsWith env.bundlePath ".hbc"
  if platform == "android" && !isBinary then
    { uploads := [], result := .error .formatViolation }
  else
    let bundleHash := hashFn env.bundleContent
    let updateId := generateUpdateId env.randomBytes
    let bundleExtension := jsOrDefault (lastSplit env.bundlePath '.') "js"
    let bPath := blobPath updateId ("bundle." ++ bundleExtension)
    let bundleUrl := env.urlOf bPath
    if isBinary &&
        !(verifyHashFromUrl env.doFetch hashFn bundleUrl bundleHash).hashMatches then
      { uploads := [bPath], result := .error .integrityError }
    else
      let assetPaths := env.assetFiles.map
        (fun af => blobPath updateId ("assets/" ++ normSlash af.1))
      let assets : List Asset := env.assetFiles.map (fun af =>
        { hash := "sha256:" ++ hashFn af.2,
          key := "assets/" ++ normSlash af.1,
          contentType := getContentType af.1,
          url := env.urlOf (blobPath updateId ("assets/" ++ normSlash af.1)) })
      let bundleAsset : Asset :=
        { hash := "sha256:" ++ bundleHash, key := "bundle",
          contentType := "application/octet-stream", url := bundleUrl }
      let manifest : StoredManifest :=
        { id := some updateId,
          createdAtRaw := some (toISOStringMs env.now),
          runtimeVersion := some runtimeVersion,
          launchAsset := some bundleAsset,
          assets := some (bundleAsset :: assets),
          metadata := some [], extra := some [] }
      let rec0 : UpdateRec :=
        { id := some updateId, runtimeVersion := runtimeVersion,
          platform := platform, channel := channel, status := "published",
          commitTime := some (.date env.now), manifest := manifest,
          message := message, createdAt := some (.date env.now),
          publishedAt := some (.date env.now) }
      match insertUpdate store rec0 with
      | .error e => { uploads := bPath :: assetPaths, result := .error e }
      | .ok store2 => { uploads := bPath :: assetPaths, result := .ok (store2, rec0) }

/-! ## Store-lookup lemmas -/

theorem foldl_laterOf_spec (l : List UpdateRec) :
    ∀ (acc : Option UpdateRec) (x : UpdateRec), l.foldl laterOf acc = some x →
      (x ∈ l ∨ acc = some x) ∧
      (∀ r ∈ l, sortKeyCommitTime r ≤ sortKeyCommitTime x) ∧
      (∀ b, acc = some b → sortKeyCommitTime b ≤ sortKeyCommitTime x) := by
  induction l with
  | nil =>
    intro acc x h
    simp only [List.foldl_nil] at h
    refine ⟨Or.inr h, by simp, fun b hb => ?_⟩
    rw [h] at hb
    cases hb
    exact le_refl _
  | cons a l ih =>
    intro acc x h
    simp only [List.foldl_cons] at h
    obtain ⟨hmem, hall, hacc⟩ := ih (laterOf acc a) x h
    have hstep : sortKeyCommitTime a ≤ sortKeyCommitTime x := by
      cases acc with
      | none => exact hacc a rfl
      | some b =>
        by_cases hlt : sortKeyCommitTime b < sortKeyCommitTime a
        · exact hacc a (by simp [laterOf, hlt])
        · have hb : sortKeyCommitTime b ≤ sortKeyCommitTime x :=
            hacc b (by simp [laterOf, hlt])
          omega
    refine ⟨?_, ?_, ?_⟩
    · rcases hmem with hx | hx
      · exact Or.inl (List.mem_cons_of_mem _ hx)
      · cases acc with
        | none =>
          simp only [laterOf] at hx
          cases hx
          exact Or.inl (List.mem_cons_self _ _)
        | some b =>
          by_cases hlt : sortKeyCommitTime b < sortKeyCommitTime a
          · simp only [laterOf, if_pos hlt] at hx
            cases hx
            exact Or.inl (List.mem_cons_self _ _)
          · simp only [laterOf, if_neg hlt] at hx
            exact Or.inr hx
    · intro r hr
      rcases List.mem_cons.mp hr with hr | hr
      · rw [hr]; exact hstep
      · exact hall r hr
    · intro b hb
      cases acc with
      | none => cases hb
      | some b0 =>
        cases hb
        by_cases hlt : sortKeyCommitTime b < sortKeyCommitTime a
        · have := hacc a (by simp [laterOf, hlt])
          omega
        · exact hacc b (by simp [laterOf, hlt])

theorem foldl_laterOf_ne_none (l : List UpdateRec) :
    ∀ (b : UpdateRec), l.foldl laterOf (some b) ≠ none := by
  induction l with
  | nil => intro b h; cases h
  | cons a l ih =>
    intro b
    simp only [List.foldl_cons, laterOf]
    split
    · exact ih a
    · exact ih b

/-- A `pickLatest` result belongs to the list and carries the greatest key. -/
theorem pickLatest_spec (l : List UpdateRec) (x : UpdateRec)
    (h : pickLatest l = some x) :
    x ∈ l ∧ ∀ r ∈ l, sortKeyCommitTime r ≤ sortKeyCommitTime x := by
  obtain ⟨hmem, hall, _⟩ := foldl_laterOf_spec l none x h
  rcases hmem with hx | hx
  · exact ⟨hx, hall⟩
  · cases hx

/-- `pickLatest` is `some` on any non-empty list. -/
theorem pickLatest_isSome (a : UpdateRec) (l : List UpdateRec) :
    pickLatest (a :: l) ≠ none := by
  unfold pickLatest
  simp only [List.foldl_cons, laterOf]
  exact foldl_laterOf_ne_none l a

/-- A `findLatest` result is a matching record of the store. -/
theorem findLatest_mem (rv p c : String) (store : List UpdateRec) (x : UpdateRec)
    (h : findLatest rv p c store = some x) :
    x ∈ store ∧ matchesQuery rv p c x = true := by
  obtain ⟨hmem, _⟩ := pickLatest_spec _ x h
  exact ⟨(List.mem_filter.mp hmem).1, (List.mem_filter.mp hmem).2⟩

/-! ## Storage-path lemmas -/

theorem hexChar_ne_slash (n : Nat) : hexChar n ≠ '/' := by
  have h : n % 16 < 16 := Nat.mod_lt _ (by decide)
  unfold hexChar
  generalize hr : n % 16 = r at h ⊢
  interval_cases r <;> decide

/-- A generated update identifier never contains a path separator. -/
theorem slash_not_mem_generateUpdateId (b : Fin 16 → Nat) :
    '/' ∉ (generateUpdateId b).data := by
  rw [generateUpdateId_eq]
  intro hmem
  simp only [List.mem_cons, List.not_mem_nil, or_false] at hmem
  rcases hmem with h|h|h|h|h|h|h|h|h|h|h|h|h|h|h|h|h|h|h|h|h|h|h|h|h|h|h|h|h|h|h|h|h|h|h|h
  all_goals first
    | exact hexChar_ne_slash _ h.symm
    | exact absurd h (by decide)

/-- Splitting a list at a separator absent from both halves is injective. -/
theorem append_sep_inj (sep : Char) (a : List Char) :
    ∀ (b x y : List Char), sep ∉ a → sep ∉ b →
      a ++ sep :: x = b ++ sep :: y → a = b ∧ x = y := by
  induction a with
  | nil =>
    intro b x y _ hb h
    cases b with
    | nil => simpa using h
    | cons c bs =>
      simp only [List.nil_append, List.cons_append, List.cons.injEq] at h
      exact absurd (by rw [h.1]; exact List.mem_cons_self c bs) hb
  | cons d as ih =>
    intro b x y ha hb h
    cases b with
    | nil =>
      simp only [List.cons_append, List.nil_append, List.cons.injEq] at h
      exact absurd (by rw [← h.1]; exact List.mem_cons_self d as) ha
    | cons c bs =>
      simp only [List.cons_append, List.cons.injEq] at h
      obtain ⟨h1, h2⟩ := h
      have ha' : sep ∉ as := fun hx => ha (List.mem_cons_of_mem _ hx)
      have hb' : sep ∉ bs := fun hx => hb (List.mem_cons_of_mem _ hx)
      obtain ⟨hab, hxy⟩ := ih bs x y ha' hb' h2
      exact ⟨by rw [h1, hab], hxy⟩

theorem blobPath_data (i f : String) :
    (blobPath i f).data = "updates/".data ++ (i.data ++ '/' :: f.data) := by
  unfold blobPath
  have hs : "/".data = ['/'] := rfl
  simp only [String.data_append, List.append_assoc, hs, List.singleton_append]

/-- Distinct separator-free identifiers give disjoint storage paths. -/
theorem blobPath_ne_of_id_ne (i1 i2 f1 f2 : String)
    (h1 : '/' ∉ i1.data) (h2 : '/' ∉ i2.data) (hne : i1 ≠ i2) :
    blobPath i1 f1 ≠ blobPath i2 f2 := by
  intro h
  have hd : (blobPath i1 f1).data = (blobPath i2 f2).data := by rw [h]
  rw [blobPath_data, blobPath_data] at hd
  have hd2 := List.append_cancel_left hd
  obtain ⟨hi, -⟩ := append_sep_inj '/' i1.data i2.data f1.data f2.data h1 h2 hd2
  exact hne (by cases i1; cases i2; exact congrArg String.mk hi)

/-- Under one identifier, the storage path determines the file name. -/
theorem blobPath_inj_file (i f1 f2 : String)
    (h : blobPath i f1 = blobPath i f2) : f1 = f2 := by
  have hd : (blobPath i f1).data = (blobPath i f2).data := by rw [h]
  rw [blobPath_data, blobPath_data] at hd
  have hd2 := List.append_cancel_left (List.append_cancel_left hd)
  have hd3 : f1.data = f2.data := by simpa using hd2
  cases f1; cases f2; exact congrArg String.mk hd3

/-- The bundle path and an asset path of one publish never coincide. -/
theorem bundle_path_ne_asset_path (i e r : String) :
    blobPath i ("bundle." ++ e) ≠ blobPath i ("assets/" ++ r) := by
  intro h
  have h2 := blobPath_inj_file _ _ _ h
  have hd : ("bundle." ++ e).data = ("assets/" ++ r).data := by rw [h2]
  have hb : "bundle.".data = ['b','u','n','d','l','e','.'] := rfl
  have ha : "assets/".data = ['a','s','s','e','t','s','/'] := rfl
  simp only [String.data_append, hb, ha, List.cons_append, List.cons.injEq] at hd
  exact absurd hd.1 (by decide)

/-- Asset paths of one publish are distinct for distinct relative paths. -/
theorem asset_path_inj (i : String) : Function.Injective
    (fun rel => blobPath i ("assets/" ++ rel)) := by
  intro r1 r2 h
  have h2 := blobPath_inj_file _ _ _ h
  have hd : ("assets/" ++ r1).data = ("assets/" ++ r2).data := by rw [h2]
  simp only [String.data_append] at hd
  have hd2 := List.append_cancel_left hd
  cases r1; cases r2; exact congrArg String.mk hd2

/-! ## Claims -/

/-- **C8**: for a publish with `platform = android` whose located bundle is
not a `.hbc` (binary bytecode) file, the pipeline aborts with
`FormatViolationError` (the Android-requires-Hermes-bytecode error) and the
upload list is empty — no upload call has occurred. -/
theorem c8_android_requires_hbc (hashFn : List Nat → String) (env : PublishEnv)
    (channel runtimeVersion : String) (message : Option String)
    (store : List UpdateRec)
    (hnb : strEndsWith env.bundlePath ".hbc" = false) :
    (runPublish hashFn env "android" channel runtimeVersion message store).result =
      .error .formatViolation ∧
    (runPublish hashFn env "android" channel runtimeVersion message store).uploads = [] := by
  unfold runPublish
  simp only [hnb]
  simp

/-- Witness for `c8_android_requires_hbc` at a concrete non-binary bundle. -/
theorem c8_witness :
    strEndsWith "dist/_expo/static/js/android/entry-12ab.js" ".hbc" = false ∧
    (runPublish (fun l => String.mk (padNat 4 l.length))
      { bundlePath := "dist/_expo/static/js/android/entry-12ab.js",
        bundleContent := [1, 2, 3], assetFiles := [],
        urlOf := fun p => "https://blob.example/" ++ p,
        doFetch := fun _ => { ok := true, contentEncoding := none, body := [1, 2, 3] },
        randomBytes := fun _ => 0, now := 0 }
      "android" "production" "1.0.0" none []).result = .error .formatViolation :=
  ⟨by decide, (c8_android_requires_hbc _ _ _ _ _ _ (by decide)).1⟩

/-- **C10**: serving a resolution request leaves the store untouched — the
records (manifest included) after the request are exactly the records
before it; all normalization happens on a fresh copy of the manifest. -/
theorem c10_read_only (rb : Fin 16 → Nat) (now : Nat) (req : UpdatesRequest)
    (store : List UpdateRec) :
    (handleGet rb now req store).store = store := by
  unfold handleGet
  dsimp only
  split
  · rfl
  · split
    · rfl
    · split
      · rfl
      · rfl

/-- **C9**: every response of the resolution endpoint — 400 validation
error, 204 no-update, 500 unrepairable-manifest error and 200 manifest
alike — carries the full set of cache-disabling headers (`no-store`,
`no-cache`, revalidation directives, `Pragma`, immediate `Expires`), and
the two protocol responses (204 and 200) additionally carry the
`expo-protocol-version` marker. -/
theorem c9_cache_disabled (rb : Fin 16 → Nat) (now : Nat) (req : UpdatesRequest)
    (store : List UpdateRec) :
    (("Cache-Control", "no-store, no-cache, must-revalidate, proxy-revalidate") ∈
      (handleGet rb now req store).resp.headers) ∧
    (("Pragma", "no-cache") ∈ (handleGet rb now req store).resp.headers) ∧
    (("Expires", "0") ∈ (handleGet rb now req store).resp.headers) ∧
    (((handleGet rb now req store).resp.status = 204 ∨
       (handleGet rb now req store).resp.status = 200) →
      ("expo-protocol-version", "1") ∈ (handleGet rb now req store).resp.headers) := by
  unfold handleGet
  dsimp only
  split
  · simp [noCacheHeaders]
  · split
    · simp [noCacheHeaders]
    · split
      · simp [noCacheHeaders]
      · simp [noCacheHeaders]

/-- Witness for `c9_cache_disabled` at a concrete request. -/
theorem c9_witness :
    (("Cache-Control", "no-store, no-cache, must-revalidate, proxy-revalidate") ∈
      (handleGet (fun _ => 0) 0
        { hRuntimeVersion := none, hPlatform := none, hChannel := none,
          qRuntimeVersion := some "1.0.0", qPlatform := some "ios",
          qChannel := none } []).resp.headers) ∧
    (("Pragma", "no-cache") ∈ (handleGet (fun _ => 0) 0
        { hRuntimeVersion := none, hPlatform := none, hChannel := none,
          qRuntimeVersion := some "1.0.0", qPlatform := some "ios",
          qChannel := none } []).resp.headers) ∧
    (("Expires", "0") ∈ (handleGet (fun _ => 0) 0
        { hRuntimeVersion := none, hPlatform := none, hChannel := none,
          qRuntimeVersion := some "1.0.0", qPlatform := some "ios",
          qChannel := none } []).resp.headers) ∧
    (((handleGet (fun _ => 0) 0
        { hRuntimeVersion := none, hPlatform := none, hChannel := none,
          qRuntimeVersion := some "1.0.0", qPlatform := some "ios",
          qChannel := none } []).resp.status = 204 ∨
      (handleGet (fun _ => 0) 0
        { hRuntimeVersion := none, hPlatform := none, hChannel := none,
          qRuntimeVersion := some "1.0.0", qPlatform := some "ios",
          qChannel := none } []).resp.status = 200) →
      ("expo-protocol-version", "1") ∈ (handleGet (fun _ => 0) 0
        { hRuntimeVersion := none, hPlatform := none, hChannel := none,
          qRuntimeVersion := some "1.0.0", qPlatform := some "ios",
          qChannel := none } []).resp.headers) :=
  c9_cache_disabled (fun _ => 0) 0
    { hRuntimeVersion := none, hPlatform := none, hChannel := none,
      qRuntimeVersion := some "1.0.0", qPlatform := some "ios",
      qChannel := none } []

/-- **C7**: a valid request whose scope matches no published record gets the
protocol's explicit empty signal: status 204 with an empty body and the
`expo-protocol-version` marker — distinguishable at the transport layer
from an error response and from a manifest response, and containing no
manifest at all. -/
theorem c7_no_update_signal (rb : Fin 16 → Nat) (now : Nat)
    (req : UpdatesRequest) (store : List UpdateRec)
    (hrv : strFalsy (jsOrS req.hRuntimeVersion req.qRuntimeVersion) = false)
    (hp : strFalsy (jsOrS req.hPlatform req.qPlatform) = false)
    (hnone : findLatest ((jsOrS req.hRuntimeVersion req.qRuntimeVersion).getD "")
      ((jsOrS req.hPlatform req.qPlatform).getD "")
      ((jsOrS (jsOrS req.hChannel req.qChannel) (some "production")).getD "")
      store = none) :
    (handleGet rb now req store).resp.status = 204 ∧
    (handleGet rb now req store).resp.body = .empty ∧
    (("expo-protocol-version", "1") ∈ (handleGet rb now req store).resp.headers) ∧
    (∀ m : Manifest, (handleGet rb now req store).resp.body ≠ .manifest m) := by
  unfold handleGet
  dsimp only
  rw [hrv, hp, hnone]
  refine ⟨rfl, rfl, ?_, fun m h => by cases h⟩
  simp [noCacheHeaders]

/-- Witness for `c7_no_update_signal`: a valid scope against an empty store. -/
theorem c7_witness :
    (handleGet (fun _ => 0) 0
      { hRuntimeVersion := some "1.0.0", hPlatform := some "android",
        hChannel := none, qRuntimeVersion := none, qPlatform := none,
        qChannel := none } []).resp.status = 204 ∧
    (handleGet (fun _ => 0) 0
      { hRuntimeVersion := some "1.0.0", hPlatform := some "android",
        hChannel := none, qRuntimeVersion := none, qPlatform := none,
        qChannel := none } []).resp.body = .empty :=
  ⟨(c7_no_update_signal (fun _ => 0) 0 _ [] (by decide) (by decide) (by decide)).1,
   (c7_no_update_signal (fun _ => 0) 0 _ [] (by decide) (by decide) (by decide)).2.1⟩

/-- **C4, counterexample**: the claim says a request with
`platform = "windows"` gets a client-error response and causes zero store
queries.  On the code, the handler validates only the *presence* of
`runtimeVersion` and `platform`: it issues one store query and (the schema
admitting no such platform) answers with the 204 empty signal, not with a
client error. -/
theorem c4_counterexample :
    (handleGet (fun _ => 0) 0
      { hRuntimeVersion := none, hPlatform := none, hChannel := none,
        qRuntimeVersion := some "1.0.0", qPlatform := some "windows",
        qChannel := none } []).queries = 1 ∧
    (handleGet (fun _ => 0) 0
      { hRuntimeVersion := none, hPlatform := none, hChannel := none,
        qRuntimeVersion := some "1.0.0", qPlatform := some "windows",
        qChannel := none } []).resp.status = 204 ∧
    ¬ ((handleGet (fun _ => 0) 0
      { hRuntimeVersion := none, hPlatform := none, hChannel := none,
        qRuntimeVersion := some "1.0.0", qPlatform := some "windows",
        qChannel := none } []).resp.status = 400) := by
  refine ⟨rfl, rfl, by decide⟩

/-- **C4, amended**: an unrecognized platform value is *not* rejected by the
endpoint.  A request whose platform resolves to a value other than `ios`
and `android` passes validation, issues exactly one store query and — since
the schema's enum admits only `ios` and `android`, so no record can match —
receives the 204 empty signal rather than a client-error response. -/
theorem c4_unrecognized_platform (rb : Fin 16 → Nat) (now : Nat)
    (req : UpdatesRequest) (store : List UpdateRec)
    (hrv : strFalsy (jsOrS req.hRuntimeVersion req.qRuntimeVersion) = false)
    (hp : strFalsy (jsOrS req.hPlatform req.qPlatform) = false)
    (hinv : ∀ s, jsOrS req.hPlatform req.qPlatform = some s →
      s ≠ "ios" ∧ s ≠ "android")
    (hschema : ∀ r ∈ store, r.platform = "ios" ∨ r.platform = "android") :
    (handleGet rb now req store).queries = 1 ∧
    (handleGet rb now req store).resp.status = 204 ∧
    (handleGet rb now req store).resp.body = .empty := by
  have hnone : findLatest ((jsOrS req.hRuntimeVersion req.qRuntimeVersion).getD "")
      ((jsOrS req.hPlatform req.qPlatform).getD "")
      ((jsOrS (jsOrS req.hChannel req.qChannel) (some "production")).getD "")
      store = none := by
    unfold findLatest
    have hfil : store.filter (matchesQuery
        ((jsOrS req.hRuntimeVersion req.qRuntimeVersion).getD "")
        ((jsOrS req.hPlatform req.qPlatform).getD "")
        ((jsOrS (jsOrS req.hChannel req.qChannel) (some "production")).getD "")) = [] := by
      refine List.filter_eq_nil_iff.mpr ?_
      intro r hr
      obtain ⟨hs, hps⟩ : ∃ s, jsOrS req.hPlatform req.qPlatform = some s := by
        cases hq : jsOrS req.hPlatform req.qPlatform with
        | none => rw [hq] at hp; cases hp
        | some s => exact ⟨s, rfl⟩
      obtain ⟨hi, ha⟩ := hinv hs hps
      intro hm
      unfold matchesQuery at hm
      simp only [Bool.and_eq_true, beq_iff_eq] at hm
      have hrp : r.platform = hs := by
        have := hm.1.1.2
        rw [hps] at this
        simpa using this
      rcases hschema r hr with h | h <;> rw [h] at hrp
      · exact hi hrp.symm
      · exact ha hrp.symm
    rw [hfil]
    rfl
  unfold handleGet
  dsimp only
  rw [hrv, hp, hnone]
  exact ⟨rfl, rfl, rfl⟩

/-- Witness for `c4_unrecognized_platform` at `platform = "windows"`. -/
theorem c4_witness :
    (handleGet (fun _ => 1) 7
      { hRuntimeVersion := some "2.0.0", hPlatform := some "windows",
        hChannel := none, qRuntimeVersion := none, qPlatform := none,
        qChannel := none } []).queries = 1 ∧
    (handleGet (fun _ => 1) 7
      { hRuntimeVersion := some "2.0.0", hPlatform := some "windows",
        hChannel := none, qRuntimeVersion := none, qPlatform := none,
        qChannel := none } []).resp.status = 204 ∧
    (handleGet (fun _ => 1) 7
      { hRuntimeVersion := some "2.0.0", hPlatform := some "windows",
        hChannel := none, qRuntimeVersion := none, qPlatform := none,
        qChannel := none } []).resp.body = .empty :=
  c4_unrecognized_platform (fun _ => 1) 7 _ [] (by decide) (by decide)
    (by
      intro s hs
      have hws : s = "windows" := by simpa [jsOrS] using hs.symm
      subst hws
      exact ⟨by decide, by decide⟩)
    (by intro r hr; cases hr)

/-- **C5**: the endpoint's store lookup returns, among the `published`
records matching the full scope, the one with the greatest commit instant
(the head after ordering by commit instant descending).  In particular,
when one matching record has a strictly greater commit instant than every
other matching record — e.g. the later of two publishes to the same scope —
the lookup returns exactly that record. -/
theorem c5_latest_wins (rv p c : String) (store : List UpdateRec)
    (rec : UpdateRec) (hmem : rec ∈ store)
    (hmatch : matchesQuery rv p c rec = true)
    (hmax : ∀ r ∈ store, matchesQuery rv p c r = true → r ≠ rec →
      sortKeyCommitTime r < sortKeyCommitTime rec) :
    findLatest rv p c store = some rec := by
  have hrecf : rec ∈ store.filter (matchesQuery rv p c) :=
    List.mem_filter.mpr ⟨hmem, hmatch⟩
  cases hx : findLatest rv p c store with
  | none =>
    unfold findLatest at hx
    obtain ⟨a, l, hl⟩ : ∃ a l, store.filter (matchesQuery rv p c) = a :: l := by
      cases hfl : store.filter (matchesQuery rv p c) with
      | nil => rw [hfl] at hrecf; cases hrecf
      | cons a l => exact ⟨a, l, rfl⟩
    rw [hl] at hx
    exact absurd hx (pickLatest_isSome a l)
  | some x =>
    by_cases hxe : x = rec
    · rw [hxe]
    · obtain ⟨hxmem, hall⟩ := pickLatest_spec _ x hx
      have hxs := List.mem_filter.mp hxmem
      have h1 := hmax x hxs.1 hxs.2 hxe
      have h2 := hall rec hrecf
      omega

/-- Witness for `c5_latest_wins`: two publishes to one scope with distinct
commit instants; resolution returns the later one. -/
theorem c5_witness :
    findLatest "1.0.0" "android" "production"
      [{ id := some "a", runtimeVersion := "1.0.0", platform := "android",
         channel := "production", status := "published",
         commitTime := some (.date 1000), manifest :=
           { id := none, createdAtRaw := none, runtimeVersion := none,
             launchAsset := none, assets := none, metadata := none, extra := none },
         message := none, createdAt := none, publishedAt := none },
       { id := some "b", runtimeVersion := "1.0.0", platform := "android",
         channel := "production", status := "published",
         commitTime := some (.date 2000), manifest :=
           { id := none, createdAtRaw := none, runtimeVersion := none,
             launchAsset := none, assets := none, metadata := none, extra := none },
         message := none, createdAt := none, publishedAt := none }] =
    some { id := some "b", runtimeVersion := "1.0.0", platform := "android",
           channel := "production", status := "published",
           commitTime := some (.date 2000), manifest :=
             { id := none, createdAtRaw := none, runtimeVersion := none,
               launchAsset := none, assets := none, metadata := none, extra := none },
           message := none, createdAt := none, publishedAt := none } :=
  c5_latest_wins "1.0.0" "android" "production" _ _ (by decide) (by decide)
    (by
      intro r hr hm hne
      fin_cases hr
      · decide
      · exact absurd rfl hne)

/-- **C6**: the store's unique index on
`(runtimeVersion, platform, channel, commitTime)` rejects a second publish
whose commit instant duplicates an existing record's within the same scope:
when the pipeline reaches the persistence step (hypotheses `hfmt`/`hver`
state that the earlier format and integrity gates pass), the whole publish
fails with `PersistenceConflict`.  The failing result carries no new store
contents — nothing is inserted, so the previously persisted record is
untouched and no partial or draft record exists. -/
theorem c6_duplicate_commit_instant (hashFn : List Nat → String)
    (env : PublishEnv) (p c rv : String) (msg : Option String)
    (store : List UpdateRec) (r1 : UpdateRec) (hmem : r1 ∈ store)
    (hrv : r1.runtimeVersion = rv) (hp : r1.platform = p) (hc : r1.channel = c)
    (hct : r1.commitTime.map JsDate.ms = some env.now)
    (hfmt : p = "android" → strEndsWith env.bundlePath ".hbc" = true)
    (hver : strEndsWith env.bundlePath ".hbc" = true →
      (verifyHashFromUrl env.doFetch hashFn
        (env.urlOf (blobPath (generateUpdateId env.randomBytes)
          ("bundle." ++ jsOrDefault (lastSplit env.bundlePath '.') "js")))
        (hashFn env.bundleContent)).hashMatches = true) :
    (runPublish hashFn env p c rv msg store).result = .error .persistenceConflict := by
  unfold runPublish
  dsimp only
  split
  · rename_i hcond
    simp only [Bool.and_eq_true, Bool.not_eq_true', beq_iff_eq] at hcond
    have hx := hfmt hcond.1
    rw [hcond.2] at hx
    exact absurd hx (by decide)
  · split
    · rename_i hcond2
      simp only [Bool.and_eq_true, Bool.not_eq_true'] at hcond2
      have hx := hver hcond2.1
      rw [hcond2.2] at hx
      exact absurd hx (by decide)
    · have hany : store.any (fun s => commitKey s ==
          ((rv, p, c, some env.now) : String × String × String × Option Nat)) = true := by
        refine List.any_eq_true.mpr ⟨r1, hmem, ?_⟩
        refine beq_iff_eq.mpr ?_
        unfold commitKey
        rw [hrv, hp, hc, hct]
      split
      · rename_i e heq
        unfold insertUpdate at heq
        split at heq
        · injection heq with h2
          rw [← h2]
        · cases heq
      · rename_i s2 r2 heq
        unfold insertUpdate at heq
        split at heq
        · cases heq
        · rename_i hno
          exact absurd (by simpa [commitKey] using hany) hno

/-- A length-based stand-in digest function used by concrete witnesses (the
real `calculateHash` is SHA-256 from node `crypto`, an external primitive
over which the theorems are universally quantified). -/
def wHash (l : List Nat) : String := String.mk (padNat 4 l.length)

/-- Concrete publish environment for the `c6` witness. -/
def wEnv6 : PublishEnv :=
  { bundlePath := "dist/_expo/static/js/ios/entry-99.js",
    bundleContent := [1, 2], assetFiles := [],
    urlOf := fun pth => "https://blob.example/" ++ pth,
    doFetch := fun _ => { ok := true, contentEncoding := none, body := [1, 2] },
    randomBytes := fun _ => 3, now := 5 }

/-- Concrete persisted record for the `c6` witness. -/
def wRec6 : UpdateRec :=
  { id := some "a", runtimeVersion := "1.0.0", platform := "ios",
    channel := "production", status := "published",
    commitTime := some (.date 5), manifest :=
      { id := none, createdAtRaw := none, runtimeVersion := none,
        launchAsset := none, assets := none, metadata := none, extra := none },
    message := none, createdAt := none, publishedAt := none }

/-- Witness for `c6_duplicate_commit_instant`: a second publish whose commit
instant equals a persisted record's in the same scope. -/
theorem c6_witness :
    (runPublish wHash wEnv6 "ios" "production" "1.0.0" none [wRec6]).result =
      .error .persistenceConflict :=
  c6_duplicate_commit_instant wHash wEnv6 "ios" "production" "1.0.0" none
    [wRec6] wRec6 (by decide) (by decide) (by decide) (by decide) (by decide)
    (by decide) (by decide)

/-! ## C1: post-upload integrity verification -/

/-- The record persisted by a publish outcome, if any. -/
def publishedRec (o : PublishOutcome) : Option UpdateRec :=
  match o.result with
  | .ok (_, r) => some r
  | .error _ => none

/-- Whether a publish outcome succeeded. -/
def publishSucceeded (o : PublishOutcome) : Bool :=
  match o.result with
  | .ok _ => true
  | .error _ => false

/-- The launch asset recorded by a successful publish, if any. -/
def launchAssetOf (o : PublishOutcome) : Option Asset :=
  (publishedRec o).bind (fun r => r.manifest.launchAsset)

/-- What a true `hashMatches` verdict of `verifyHashFromUrl` certifies
about the identity-encoded fetch of the URL. -/
theorem verify_ok_of_hashMatches (doFetch : String → FetchResponse)
    (hashFn : List Nat → String) (url expected : String)
    (h : (verifyHashFromUrl doFetch hashFn url expected).hashMatches = true) :
    (doFetch url).ok = true ∧
    ((doFetch url).contentEncoding = none ∨
     (doFetch url).contentEncoding = some "identity") ∧
    hashFn (doFetch url).body = expected := by
  unfold verifyHashFromUrl at h
  dsimp only at h
  split at h
  · cases h
  · split at h
    · cases h
    · rename_i hok henc
      refine ⟨by simpa using hok, ?_, by simpa using h⟩
      cases hce : (doFetch url).contentEncoding with
      | none => exact Or.inl rfl
      | some enc =>
        rw [hce] at henc
        simp only [bne_iff_ne, ne_eq, Decidable.not_not] at henc
        exact Or.inr (by rw [henc])

/-- **C1, amended**: for every successful publish whose located bundle is in
binary (`.hbc`) format, the persisted launch asset's recorded hash equals
the algorithm tag plus the digest of the bytes served at the asset's public
URL under an identity-encoded fetch, and that fetch reports no
non-identity transport encoding (a non-identity encoding would have failed
verification, aborting the publish before persistence — the error result
carries no store contents).  For non-binary bundles the pipeline performs
no such verification (see `c1_counterexample`). -/
theorem c1_binary_integrity (hashFn : List Nat → String) (env : PublishEnv)
    (p c rv : String) (msg : Option String) (store store2 : List UpdateRec)
    (rec : UpdateRec)
    (hbin : strEndsWith env.bundlePath ".hbc" = true)
    (hok : (runPublish hashFn env p c rv msg store).result = .ok (store2, rec)) :
    ∃ la, rec.manifest.launchAsset = some la ∧
      la.hash = "sha256:" ++ hashFn (env.doFetch la.url).body ∧
      ((env.doFetch la.url).contentEncoding = none ∨
       (env.doFetch la.url).contentEncoding = some "identity") ∧
      (env.doFetch la.url).ok = true := by
  unfold runPublish at hok
  dsimp only at hok
  split at hok
  · cases hok
  · split at hok
    · cases hok
    · rename_i hnover
      rw [hbin] at hnover
      simp only [Bool.true_and, Bool.not_eq_eq_eq_not, Bool.not_true,
        Bool.not_eq_false] at hnover
      obtain ⟨hfok, henc, hhash⟩ :=
        verify_ok_of_hashMatches env.doFetch hashFn _ _ hnover
      split at hok
      · cases hok
      · rename_i s2 heq
        dsimp only at hok
        injection hok with hok
        obtain ⟨h1, h2⟩ := Prod.mk.inj hok
        refine ⟨_, by rw [← h2], ?_, ?_, ?_⟩
        · dsimp only
          rw [hhash]
        · exact henc
        · exact hfok

/-- Concrete publish environment for the `c1` counterexample: an iOS
publish whose located bundle is plain JavaScript (not `.hbc`), served after
upload with `Content-Encoding: gzip` and different bytes. -/
def wEnvJs : PublishEnv :=
  { bundlePath := "dist/_expo/static/js/ios/entry-7.js",
    bundleContent := [1, 2, 3], assetFiles := [],
    urlOf := fun _ => "https://blob.example/b",
    doFetch := fun _ =>
      { ok := true, contentEncoding := some "gzip", body := [9, 9, 9, 9] },
    randomBytes := fun _ => 0, now := 0 }

/-- **C1, counterexample**: the claim quantifies over *every* successful
publish, but the pipeline only verifies the served bytes for binary
(`.hbc`) bundles.  This iOS publish of a `.js` bundle succeeds although the
identity-transport re-fetch of the bundle URL returns bytes with a
different digest (`0004` vs the recorded `0003`) under a non-identity
(`gzip`) transport encoding — neither condition fails the publish. -/
theorem c1_counterexample :
    publishSucceeded (runPublish wHash wEnvJs "ios" "production" "1.0.0" none []) = true ∧
    launchAssetOf (runPublish wHash wEnvJs "ios" "production" "1.0.0" none []) =
      some { hash := "sha256:0003", key := "bundle",
             contentType := "application/octet-stream",
             url := "https://blob.example/b" } ∧
    (wEnvJs.doFetch "https://blob.example/b").contentEncoding = some "gzip" ∧
    "sha256:" ++ wHash (wEnvJs.doFetch "https://blob.example/b").body = "sha256:0004" ∧
    ("sha256:0003" : String) ≠ "sha256:0004" := by
  refine ⟨by decide, by decide, rfl, by decide, by decide⟩

/-- Concrete publish environment for the `c1` witness: an Android `.hbc`
publish whose post-upload serving state returns the uploaded bytes
unencoded. -/
def wEnvHbc : PublishEnv :=
  { bundlePath := "dist/_expo/static/js/android/entry-7.hbc",
    bundleContent := [1, 2], assetFiles := [("icon.png", [5])],
    urlOf := fun pth => "https://blob.example/" ++ pth,
    doFetch := fun _ => { ok := true, contentEncoding := none, body := [1, 2] },
    randomBytes := fun _ => 0, now := 0 }

/-- The record persisted by the `c1` witness publish. -/
def wRecHbc : UpdateRec :=
  { id := some "00000000-0000-4000-8000-000000000000",
    runtimeVersion := "1.0.0", platform := "android", channel := "production",
    status := "published", commitTime := some (.date 0),
    manifest :=
      { id := some "00000000-0000-4000-8000-000000000000",
        createdAtRaw := some "1970-01-01T00:00:00.000Z",
        runtimeVersion := some "1.0.0",
        launchAsset := some
          { hash := "sha256:0002", key := "bundle",
            contentType := "application/octet-stream",
            url := "https://blob.example/updates/00000000-0000-4000-8000-000000000000/bundle.hbc" },
        assets := some
          [{ hash := "sha256:0002", key := "bundle",
             contentType := "application/octet-stream",
             url := "https://blob.example/updates/00000000-0000-4000-8000-000000000000/bundle.hbc" },
           { hash := "sha256:0001", key := "assets/icon.png",
             contentType := "image/png",
             url := "https://blob.example/updates/00000000-0000-4000-8000-000000000000/assets/icon.png" }],
        metadata := some [], extra := some [] },
    message := none, createdAt := some (.date 0), publishedAt := some (.date 0) }

/-- Witness for `c1_binary_integrity` at a concrete binary publish. -/
theorem c1_witness :
    wRecHbc.manifest.launchAsset = some
      { hash := "sha256:0002", key := "bundle",
        contentType := "application/octet-stream",
        url := "https://blob.example/updates/00000000-0000-4000-8000-000000000000/bundle.hbc" } ∧
    ("sha256:0002" : String) = "sha256:" ++ wHash (wEnvHbc.doFetch
      "https://blob.example/updates/00000000-0000-4000-8000-000000000000/bundle.hbc").body ∧
    (wEnvHbc.doFetch
      "https://blob.example/updates/00000000-0000-4000-8000-000000000000/bundle.hbc").contentEncoding = none := by
  obtain ⟨la, h1, h2, h3, h4⟩ := c1_binary_integrity wHash wEnvHbc "android"
    "production" "1.0.0" none [] [wRecHbc] wRecHbc (by decide) (by rfl)
  have h0 : wRecHbc.manifest.launchAsset = some
      { hash := "sha256:0002", key := "bundle",
        contentType := "application/octet-stream",
        url := "https://blob.example/updates/00000000-0000-4000-8000-000000000000/bundle.hbc" } := rfl
  rw [h0] at h1
  have hla := Option.some.inj h1
  subst hla
  rcases h3 with h3 | h3
  · exact ⟨h0, h2, h3⟩
  · exact absurd h3 (by decide)

/-- **C2**: whenever the resolution endpoint returns a manifest, that
manifest's `id` is a syntactically valid UUID and its `createdAt` a valid
ISO-8601 timestamp — whatever the shape of the stored record (malformed or
missing identifier, raw-number or missing date fields, missing
metadata/extra).  The bound hypotheses confine the stored instants and the
request clock to the modelled `Date` range (years 1970–9999). -/
theorem c2_normalized_manifest (rb : Fin 16 → Nat) (now : Nat)
    (req : UpdatesRequest) (store : List UpdateRec) (m : Manifest)
    (hnow : now < maxMs)
    (hdates : ∀ r ∈ store,
      (∀ d, r.commitTime = some d → d.ms < maxMs) ∧
      (∀ d, r.createdAt = some d → d.ms < maxMs))
    (hm : (handleGet rb now req store).resp.body = .manifest m) :
    isUUID m.id = true ∧ isValidISO8601 m.createdAt = true := by
  unfold handleGet at hm
  dsimp only at hm
  split at hm
  · cases hm
  · split at hm
    · cases hm
    · rename_i doc hfind
      split at hm
      · cases hm
      · rename_i pr idx la hla
        dsimp only at hm
        injection hm with hm
        subst hm
        obtain ⟨hdmem, -⟩ := findLatest_mem _ _ _ store doc hfind
        obtain ⟨hct, hca⟩ := hdates doc hdmem
        have hms : ((jsOrD doc.commitTime (jsOrD doc.createdAt
            (some (.date now)))).getD (.date now)).ms < maxMs := by
          cases hc : doc.commitTime with
          | none =>
            cases ha : doc.createdAt with
            | none => simpa [jsOrD] using hnow
            | some d =>
              by_cases ht : d.truthy = true
              · simp only [jsOrD, ht, if_pos, Option.getD_some]
                exact hca d ha
              · simp only [jsOrD, ht, if_neg, Bool.false_eq_true,
                  Option.getD_some]
                exact hnow
          | some d =>
            by_cases ht : d.truthy = true
            · simp only [jsOrD, ht, if_pos, Option.getD_some]
              exact hct d hc
            · cases ha : doc.createdAt with
              | none =>
                simp only [jsOrD, ht, if_neg, Bool.false_eq_true,
                  Option.getD_some]
                exact hnow
              | some d2 =>
                by_cases ht2 : d2.truthy = true
                · simp only [jsOrD, ht, ht2, if_pos, if_neg,
                    Bool.false_eq_true, Option.getD_some]
                  exact hca d2 ha
                · simp only [jsOrD, ht, ht2, if_neg, Bool.false_eq_true,
                    Option.getD_some]
                  exact hnow
        constructor
        · dsimp only
          cases doc.id with
          | none => exact isUUID_generateUpdateId rb
          | some s =>
            by_cases hu : isUUID s = true
            · simp [hu]
            · simp only [Bool.not_eq_true] at hu
              simp only [hu, Bool.false_eq_true, if_neg]
              exact isUUID_generateUpdateId rb
        · dsimp only
          exact isValidISO8601_toISOStringMs _ hms

/-- Malformed stored record for the `c2` witness: non-UUID record id, junk
manifest id, missing `commitTime`, numeric `createdAt`, missing
`launchAsset`/`metadata`/`extra`. -/
def wRec2 : UpdateRec :=
  { id := some "not-a-uuid", runtimeVersion := "1.0.0", platform := "android",
    channel := "production", status := "published",
    commitTime := none,
    manifest :=
      { id := some "junk", createdAtRaw := none, runtimeVersion := none,
        launchAsset := none,
        assets := some [{ hash := "sha256:77", key := "bundle",
                          contentType := "text/javascript",
                          url := "https://blob.example/x" }],
        metadata := none, extra := none },
    message := none, createdAt := some (.num 1700000000123),
    publishedAt := none }

/-- Request resolving the `c2` witness scope. -/
def wReq2 : UpdatesRequest :=
  { hRuntimeVersion := some "1.0.0", hPlatform := some "android",
    hChannel := none, qRuntimeVersion := none, qPlatform := none,
    qChannel := none }

/-- The manifest the endpoint returns for the malformed `c2` witness record. -/
def wMan2 : Manifest :=
  { id := "09090909-0909-4909-8909-090909090909",
    createdAt := "2023-11-14T22:13:20.123Z",
    runtimeVersion := "1.0.0",
    launchAsset := { hash := "sha256:77", key := "bundle",
                     contentType := "application/octet-stream",
                     url := "https://blob.example/x" },
    assets := [{ hash := "sha256:77", key := "bundle",
                 contentType := "application/octet-stream",
                 url := "https://blob.example/x" }],
    metadata := [], extra := [] }

/-- Witness for `c2_normalized_manifest`: even for the malformed stored
record the returned manifest carries a valid UUID and ISO-8601 timestamp. -/
theorem c2_witness :
    (handleGet (fun _ => 9) 0 wReq2 [wRec2]).resp.body = .manifest wMan2 ∧
    (isUUID wMan2.id = true ∧ isValidISO8601 wMan2.createdAt = true) :=
  ⟨by decide, c2_normalized_manifest (fun _ => 9) 0 wReq2 [wRec2] wMan2
    (by decide)
    (by
      intro r hr
      constructor
      · intro d hd
        rw [List.mem_singleton.mp hr] at hd
        cases hd
      · intro d hd
        rw [List.mem_singleton.mp hr] at hd
        injection hd with hd
        rw [← hd]
        decide)
    (by decide)⟩

/-- The three possible upload lists of one publish run: nothing (format
violation), the bundle path only (integrity failure), or the bundle path
followed by the asset paths. -/
theorem uploads_cases (hashFn : List Nat → String) (env : PublishEnv)
    (p c rv : String) (msg : Option String) (store : List UpdateRec) :
    (runPublish hashFn env p c rv msg store).uploads = [] ∨
    (runPublish hashFn env p c rv msg store).uploads =
      [blobPath (generateUpdateId env.randomBytes)
        ("bundle." ++ jsOrDefault (lastSplit env.bundlePath '.') "js")] ∨
    (runPublish hashFn env p c rv msg store).uploads =
      blobPath (generateUpdateId env.randomBytes)
        ("bundle." ++ jsOrDefault (lastSplit env.bundlePath '.') "js") ::
      env.assetFiles.map (fun af =>
        blobPath (generateUpdateId env.randomBytes)
          ("assets/" ++ normSlash af.1)) := by
  unfold runPublish
  dsimp only
  split
  · exact Or.inl rfl
  · split
    · exact Or.inr (Or.inl rfl)
    · split <;> exact Or.inr (Or.inr rfl)

/-- Every pathname a publish run writes is namespaced under its own fresh
update identifier. -/
theorem uploads_under_id (hashFn : List Nat → String) (env : PublishEnv)
    (p c rv : String) (msg : Option String) (store : List UpdateRec) :
    ∀ q ∈ (runPublish hashFn env p c rv msg store).uploads,
      ∃ f, q = blobPath (generateUpdateId env.randomBytes) f := by
  rcases uploads_cases hashFn env p c rv msg store with h | h | h <;> rw [h]
  · intro q hq; cases hq
  · intro q hq
    rw [List.mem_singleton.mp hq]
    exact ⟨_, rfl⟩
  · intro q hq
    rcases List.mem_cons.mp hq with h1 | h1
    · exact ⟨_, h1⟩
    · obtain ⟨af, -, heq⟩ := List.mem_map.mp h1
      exact ⟨_, heq.symm⟩

/-- **C3**: every object-storage write of a publish targets
`updates/<updateIdentifier>/bundle.<ext>` for the bundle or
`updates/<updateIdentifier>/assets/<relativePath>` for an asset, under the
identifier freshly generated for that publish; within one publish no two
writes share a pathname (given distinct asset relative paths, as produced
by the file-tree traversal), and two publishes whose generated identifiers
differ share no pathname at all — no stored bytes are ever overwritten. -/
theorem c3_write_once_paths (hashFn : List Nat → String)
    (env1 env2 : PublishEnv) (p1 c1 rv1 p2 c2 rv2 : String)
    (m1 m2 : Option String) (st1 st2 : List UpdateRec)
    (hnodup : (env1.assetFiles.map (fun af => normSlash af.1)).Nodup)
    (hid : generateUpdateId env1.randomBytes ≠ generateUpdateId env2.randomBytes) :
    (∀ q ∈ (runPublish hashFn env1 p1 c1 rv1 m1 st1).uploads,
      q = blobPath (generateUpdateId env1.randomBytes)
            ("bundle." ++ jsOrDefault (lastSplit env1.bundlePath '.') "js") ∨
      ∃ af ∈ env1.assetFiles,
        q = blobPath (generateUpdateId env1.randomBytes)
              ("assets/" ++ normSlash af.1)) ∧
    (runPublish hashFn env1 p1 c1 rv1 m1 st1).uploads.Nodup ∧
    (∀ q1 ∈ (runPublish hashFn env1 p1 c1 rv1 m1 st1).uploads,
      ∀ q2 ∈ (runPublish hashFn env2 p2 c2 rv2 m2 st2).uploads, q1 ≠ q2) := by
  refine ⟨?_, ?_, ?_⟩
  · rcases uploads_cases hashFn env1 p1 c1 rv1 m1 st1 with h | h | h <;> rw [h]
    · intro q hq; cases hq
    · intro q hq
      rw [List.mem_singleton.mp hq]
      exact Or.inl rfl
    · intro q hq
      rcases List.mem_cons.mp hq with h1 | h1
      · exact Or.inl h1
      · obtain ⟨af, hmem, heq⟩ := List.mem_map.mp h1
        exact Or.inr ⟨af, hmem, heq.symm⟩
  · rcases uploads_cases hashFn env1 p1 c1 rv1 m1 st1 with h | h | h <;> rw [h]
    · exact List.nodup_nil
    · simp
    · refine List.nodup_cons.mpr ⟨?_, ?_⟩
      · intro hmem
        obtain ⟨af, -, heq⟩ := List.mem_map.mp hmem
        exact bundle_path_ne_asset_path _ _ _ heq.symm
      · have hinj := hnodup.map (asset_path_inj (generateUpdateId env1.randomBytes))
        simpa [List.map_map, Function.comp] using hinj
  · intro q1 hq1 q2 hq2
    obtain ⟨f1, hf1⟩ := uploads_under_id hashFn env1 p1 c1 rv1 m1 st1 q1 hq1
    obtain ⟨f2, hf2⟩ := uploads_under_id hashFn env2 p2 c2 rv2 m2 st2 q2 hq2
    rw [hf1, hf2]
    exact blobPath_ne_of_id_ne _ _ _ _
      (slash_not_mem_generateUpdateId env1.randomBytes)
      (slash_not_mem_generateUpdateId env2.randomBytes) hid

/-- Witness for `c3_write_once_paths`: two concrete publishes with distinct
generated identifiers; the first writes two distinct pathnames. -/
theorem c3_witness :
    (wEnvHbc.assetFiles.map (fun af => normSlash af.1)).Nodup ∧
    generateUpdateId wEnvHbc.randomBytes ≠ generateUpdateId wEnv6.randomBytes ∧
    (runPublish wHash wEnvHbc "android" "production" "1.0.0" none []).uploads.Nodup :=
  ⟨by decide, by decide,
   (c3_write_once_paths wHash wEnvHbc wEnv6 "android" "production" "1.0.0"
     "ios" "production" "1.0.0" none none [] [] (by decide) (by decide)).2.1⟩
